import Mathlib

/-!
Verification of the AIStreamEye video-stream analyzer core against its
natural-language specification.  The C++ sources under src/ are shallowly
embedded below: pure batch reducers (GOP segmentation, duplicate-frame
detection, windowed bitrate statistics, thread-count clamping) become Lean
functions; the decode pump and the worker pool shutdown become explicit
state-passing functions respectively a step relation.  C++ int / int64_t
values are modelled as Int, size_t / unsigned as Nat, and double / float as
Rat (the claims under study do not hinge on floating-point rounding).
-/

namespace VideoAnalyzer

/-- Frame type enumeration from data_models.h. -/
inductive FrameType where
  | I_FRAME
  | P_FRAME
  | B_FRAME
  | UNKNOWN
deriving DecidableEq, Repr

/-- Per-frame record from data_models.h (struct FrameInfo).  The timestamp
field (double, seconds) is modelled as Rat. -/
structure FrameInfo where
  pts : Int
  dts : Int
  type : FrameType
  size : Int
  qp : Int
  isKeyFrame : Bool
  timestamp : Rat
  isDuplicate : Bool
  duplicateGroupId : Int
deriving DecidableEq, Repr

/-! ## DuplicateFrameDetector (video_analyzer.cpp, VideoAnalyzer::detectDuplicateFrames)

The initialization loop sets every frame to non-duplicate; the comparison
loop walks adjacent pairs.  In the C++, `prev` is a reference into the
frame vector, so the write `frames_[i-1].duplicateGroupId = currentGroupId`
is visible through `prev` for the remainder of the iteration; the embedding
reproduces exactly that read-after-write behaviour (prev2 below is the
element as the later reads observe it). -/

/-- The reset performed at the top of detectDuplicateFrames:
isDuplicate = false, duplicateGroupId = -1, all other fields kept. -/
def resetDup (f : FrameInfo) : FrameInfo :=
  ⟨f.pts, f.dts, f.type, f.size, f.qp, f.isKeyFrame, f.timestamp, false, -1⟩

/-- The adjacent-pair match test of detectDuplicateFrames:
size within tolerance, and optionally equal qp and equal type.
sizeTolerance is the float argument size_tolerance, modelled as Rat. -/
def dupMatch (tol : Rat) (requireSameQp requireSameType : Bool)
    (prev cur : FrameInfo) : Bool :=
  (|(cur.size - prev.size : Int)| ≤ (prev.size : Rat) * tol / 100)
    && (!requireSameQp || cur.qp == prev.qp)
    && (!requireSameType || cur.type == prev.type)

/-- The comparison loop of detectDuplicateFrames.  prev is the already
final element at index i-1; rest holds the elements from index i on;
gid is currentGroupId.  On a match the possibly updated prev (prev2) is
re-read for the group assignment and the increment guard, exactly as the
C++ reference aliasing does. -/
def dupGo (tol : Rat) (rq rt : Bool) (prev : FrameInfo) (gid : Int) :
    List FrameInfo → List FrameInfo
  | [] => [prev]
  | cur :: rest =>
    if dupMatch tol rq rt prev cur then
      let prev2 := if prev.duplicateGroupId == -1 then
          { prev with isDuplicate := true, duplicateGroupId := gid }
        else prev
      let cur2 : FrameInfo :=
        { cur with isDuplicate := true,
                   duplicateGroupId :=
                     if prev2.duplicateGroupId != -1 then prev2.duplicateGroupId
                     else gid }
      let gid2 := if prev2.duplicateGroupId == -1 then gid + 1 else gid
      prev2 :: dupGo tol rq rt cur2 gid2 rest
    else
      prev :: dupGo tol rq rt cur gid rest

/-- VideoAnalyzer::detectDuplicateFrames: on empty input return immediately;
otherwise reset every frame and run the comparison loop with
currentGroupId = 0. -/
def detectDuplicateFrames (tol : Rat) (rq rt : Bool)
    (frames : List FrameInfo) : List FrameInfo :=
  match frames.map resetDup with
  | [] => []
  | f0 :: rest => dupGo tol rq rt f0 0 rest

theorem resetDup_resetDup (f : FrameInfo) : resetDup (resetDup f) = resetDup f := rfl

theorem resetDup_mk_dupFields (f : FrameInfo) (d : Bool) (g : Int) :
    resetDup { f with isDuplicate := d, duplicateGroupId := g } = resetDup f := rfl

theorem dupMatch_congr (tol : Rat) (rq rt : Bool) (p p2 c : FrameInfo)
    (hs : p2.size = p.size) (hq : p2.qp = p.qp) (ht : p2.type = p.type) :
    dupMatch tol rq rt p2 c = dupMatch tol rq rt p c := by
  simp [dupMatch, hs, hq, ht]

theorem map_resetDup_dupGo (tol : Rat) (rq rt : Bool) :
    ∀ (rest : List FrameInfo) (prev : FrameInfo) (gid : Int),
      (dupGo tol rq rt prev gid rest).map resetDup = resetDup prev :: rest.map resetDup := by
  intro rest
  induction rest with
  | nil => intro prev gid; simp [dupGo]
  | cons cur rest ih =>
    intro prev gid
    by_cases h : dupMatch tol rq rt prev cur = true
    · simp only [dupGo, h, if_pos]
      by_cases hg : prev.duplicateGroupId == -1
      · simp only [hg, if_pos, List.map_cons, ih]
        simp [resetDup_mk_dupFields]
      · simp only [hg]
        simp only [if_neg (by simpa using hg), List.map_cons, ih]
        simp [resetDup_mk_dupFields]
    · simp only [dupGo, h]
      simp [ih]

theorem map_resetDup_detect (tol : Rat) (rq rt : Bool) (fs : List FrameInfo) :
    (detectDuplicateFrames tol rq rt fs).map resetDup = fs.map resetDup := by
  cases fs with
  | nil => rfl
  | cons f rest =>
    simp only [detectDuplicateFrames, List.map_cons, map_resetDup_dupGo]
    simp [resetDup_resetDup, List.map_map, Function.comp_def]

/-- C4: re-running duplicate detection is idempotent and independent of any
prior run: for every configuration pair and every frame list, running
detectDuplicateFrames with configuration (tol1, rq1, rt1) on the output of a
run with configuration (tol2, rq2, rt2) yields exactly the result of running
(tol1, rq1, rt1) on the original input — every run first resets all
duplicate flags to false and all group ids to -1, so nothing of the earlier
run survives. -/
theorem detectDuplicateFrames_idempotent (tol1 tol2 : Rat) (rq1 rt1 rq2 rt2 : Bool)
    (fs : List FrameInfo) :
    detectDuplicateFrames tol1 rq1 rt1 (detectDuplicateFrames tol2 rq2 rt2 fs)
      = detectDuplicateFrames tol1 rq1 rt1 fs := by
  cases fs with
  | nil => rfl
  | cons f rest =>
    have hmap := map_resetDup_detect tol2 rq2 rt2 (f :: rest)
    cases hd : detectDuplicateFrames tol2 rq2 rt2 (f :: rest) with
    | nil => simp [hd] at hmap
    | cons g gs =>
      rw [hd] at hmap
      simp only [List.map_cons, List.cons.injEq] at hmap
      simp only [detectDuplicateFrames, List.map_cons]
      rw [hmap.1, hmap.2]

theorem dupMatch_neg_tol (tol : Rat) (rq rt : Bool) (prev cur : FrameInfo)
    (h : tol < 0) (hs : 0 < prev.size) :
    dupMatch tol rq rt prev cur = false := by
  have hb : (prev.size : Rat) * tol / 100 < 0 := by
    apply div_neg_of_neg_of_pos
    · exact mul_neg_of_pos_of_neg (by exact_mod_cast hs) h
    · norm_num
  have hno : ¬|(cur.size : Rat) - (prev.size : Rat)| ≤ (prev.size : Rat) * tol / 100 := by
    have h0 : (0 : Rat) ≤ |(cur.size : Rat) - (prev.size : Rat)| :=
      abs_nonneg ((cur.size : Rat) - (prev.size : Rat))
    intro hle
    linarith
  simp [dupMatch]
  intro hle
  exact absurd hle hno

theorem dupGo_neg_tol (tol : Rat) (rq rt : Bool) (h : tol < 0) :
    ∀ (rest : List FrameInfo) (prev : FrameInfo) (gid : Int),
      0 < prev.size → (∀ f ∈ rest, 0 < f.size) →
      dupGo tol rq rt prev gid rest = prev :: rest := by
  intro rest
  induction rest with
  | nil => intro prev gid _ _; rfl
  | cons cur rest ih =>
    intro prev gid hp hr
    have hm := dupMatch_neg_tol tol rq rt prev cur h hp
    simp only [dupGo, hm, Bool.false_eq_true, if_false]
    rw [ih cur gid (hr cur (List.mem_cons_self cur rest))
      (fun f hf => hr f (List.mem_cons_of_mem cur hf))]

/-- C3 counterexample: the claim says a call with a negative
sizeTolerancePercent is rejected synchronously with a ConfigurationError and
mutates nothing; in the code there is no validation at all — the call with
tolerance -1 completes normally and does mutate the frame list (the initial
reset clears a previously set duplicate flag and group id). -/
theorem detectDuplicateFrames_negative_tolerance_mutates :
    detectDuplicateFrames (-1) false false
        [⟨0, 0, FrameType.P_FRAME, 10, 0, false, 0, true, 5⟩]
      ≠ [⟨0, 0, FrameType.P_FRAME, 10, 0, false, 0, true, 5⟩] := by
  decide

/-- C3 amended: invalid tolerance arguments are not validated and no
ConfigurationError exists; a call with a negative sizeTolerancePercent
completes normally, first resetting every frame duplicate flag to false and
every group id to -1, and (for frames of positive size) marks no pair as
duplicates, so the result is exactly the reset of the input — mutation does
occur on such a call. -/
theorem detectDuplicateFrames_negative_tolerance_resets (tol : Rat) (rq rt : Bool)
    (fs : List FrameInfo) (h : tol < 0) (hpos : ∀ f ∈ fs, 0 < f.size) :
    detectDuplicateFrames tol rq rt fs = fs.map resetDup := by
  cases fs with
  | nil => rfl
  | cons f rest =>
    simp only [detectDuplicateFrames, List.map_cons]
    rw [dupGo_neg_tol tol rq rt h (rest.map resetDup) (resetDup f) 0]
    · have hf : (0 : Int) < (resetDup f).size := hpos f (List.mem_cons_self f rest)
      exact hf
    · intro g hg
      rcases List.mem_map.mp hg with ⟨g0, hg0, rfl⟩
      exact hpos g0 (List.mem_cons_of_mem f hg0)

/-- Witness for the amended C3 theorem at a concrete input with tolerance -1. -/
theorem detectDuplicateFrames_negative_tolerance_resets_witness :
    detectDuplicateFrames (-1) false false
        [⟨0, 0, FrameType.P_FRAME, 10, 0, false, 0, true, 5⟩]
      = [⟨0, 0, FrameType.P_FRAME, 10, 0, false, 0, false, -1⟩] := by
  have h := detectDuplicateFrames_negative_tolerance_resets (-1) false false
    [⟨0, 0, FrameType.P_FRAME, 10, 0, false, 0, true, 5⟩]
    (by norm_num) (by intro f hf; simp at hf; rw [hf]; norm_num)
  rw [h]
  rfl

/-- C7: the four-frame Scenario C evaluated on the code.  Sizes
[1000, 1005, 1200, 1203] with tolerance 1.0 and no qp/type requirement:
frames 0-1 and frames 2-3 are marked duplicates, but BOTH pairs receive
duplicateGroupId 0 — the currentGroupId increment in the code is dead
because the group-creation branch writes through the prev reference before
the increment guard re-reads it.  The claim (and the spec scenario) expect
the second pair to receive group id 1. -/
theorem detectDuplicateFrames_scenarioC_eval :
    (detectDuplicateFrames 1 false false
        [⟨0, 0, FrameType.P_FRAME, 1000, 0, false, 0, false, -1⟩,
         ⟨1, 1, FrameType.P_FRAME, 1005, 0, false, 0, false, -1⟩,
         ⟨2, 2, FrameType.P_FRAME, 1200, 0, false, 0, false, -1⟩,
         ⟨3, 3, FrameType.P_FRAME, 1203, 0, false, 0, false, -1⟩]).map
      (fun f => (f.isDuplicate, f.duplicateGroupId))
      = [(true, 0), (true, 0), (true, 0), (true, 0)] := by
  norm_num [detectDuplicateFrames, dupGo, dupMatch, resetDup]

/-! ## GOPAnalyzer (gop_analyzer.cpp, GOPAnalyzer::detectGOPBoundaries)

The loop walks indices 1..size-1; a frame that is both I_FRAME and keyframe
closes the previous GOP (covering [gopStart, i)); after the loop the final
GOP covers [gopStart, size).  Per-GOP counts and totalSize come from a scan
of the index range; frames of type UNKNOWN contribute to frameCount and
totalSize but to none of the three per-type counters (default: break). -/

/-- GOP record from data_models.h (struct GOPInfo). -/
structure GOPInfo where
  gopIndex : Int
  startPts : Int
  endPts : Int
  frameCount : Int
  iFrameCount : Int
  pFrameCount : Int
  bFrameCount : Int
  totalSize : Int
  isOpenGOP : Bool
deriving DecidableEq, Repr

instance : Inhabited FrameInfo :=
  ⟨⟨0, 0, FrameType.UNKNOWN, 0, 0, false, 0, false, -1⟩⟩

/-- The boundary test of the loop: frames[i].type == I_FRAME and
frames[i].isKeyFrame. -/
def isGopBoundary (f : FrameInfo) : Bool :=
  f.type == FrameType.I_FRAME && f.isKeyFrame

/-- One iteration of the per-GOP counting scan (the switch on type plus the
totalSize accumulation), over (iFrameCount, pFrameCount, bFrameCount,
totalSize). -/
def gopTallyStep (t : Int × Int × Int × Int) (f : FrameInfo) : Int × Int × Int × Int :=
  match f.type with
  | FrameType.I_FRAME => (t.1 + 1, t.2.1, t.2.2.1, t.2.2.2 + f.size)
  | FrameType.P_FRAME => (t.1, t.2.1 + 1, t.2.2.1, t.2.2.2 + f.size)
  | FrameType.B_FRAME => (t.1, t.2.1, t.2.2.1 + 1, t.2.2.2 + f.size)
  | FrameType.UNKNOWN => (t.1, t.2.1, t.2.2.1, t.2.2.2 + f.size)

/-- The counting scan over a whole GOP index range. -/
def gopTally (slice : List FrameInfo) : Int × Int × Int × Int :=
  slice.foldl gopTallyStep (0, 0, 0, 0)

/-- The frames of the index range [gopStart, endExcl). -/
def gopSlice (frames : List FrameInfo) (gopStart endExcl : Nat) : List FrameInfo :=
  (frames.drop gopStart).take (endExcl - gopStart)

/-- Construction of one GOPInfo exactly as the two push_back sites do:
frameCount = endExcl - gopStart, startPts/endPts from the range ends, counts
and totalSize from the scan, isOpenGOP = false. -/
def mkGop (frames : List FrameInfo) (gopIndex gopStart endExcl : Nat) : GOPInfo :=
  let slice := gopSlice frames gopStart endExcl
  let t := gopTally slice
  { gopIndex := (gopIndex : Int),
    startPts := (frames.getD gopStart default).pts,
    endPts := (frames.getD (endExcl - 1) default).pts,
    frameCount := ((endExcl - gopStart : Nat) : Int),
    iFrameCount := t.1,
    pFrameCount := t.2.1,
    bFrameCount := t.2.2.1,
    totalSize := t.2.2.2,
    isOpenGOP := false }

/-- The main loop of detectGOPBoundaries, indices i = 1 .. size-1, followed
by the final-GOP block guarded by gopStart < size. -/
def gopLoop (frames : List FrameInfo) (i gopIndex gopStart : Nat)
    (acc : List GOPInfo) : List GOPInfo :=
  if h : i < frames.length then
    if isGopBoundary frames[i] then
      gopLoop frames (i + 1) (gopIndex + 1) i (acc ++ [mkGop frames gopIndex gopStart i])
    else
      gopLoop frames (i + 1) gopIndex gopStart acc
  else
    if gopStart < frames.length then
      acc ++ [mkGop frames gopIndex gopStart frames.length]
    else
      acc
termination_by frames.length - i

/-- GOPAnalyzer::detectGOPBoundaries: empty input produces no GOPs,
otherwise run the loop from index 1 with gopIndex 0 and gopStart 0. -/
def detectGOPBoundaries (frames : List FrameInfo) : List GOPInfo :=
  if frames.isEmpty then [] else gopLoop frames 1 0 0 []

/-- Count of UNKNOWN-type frames in a range, used to state the corrected
per-segment identity. -/
def unknownCount (slice : List FrameInfo) : Int :=
  (slice.countP (fun f => f.type == FrameType.UNKNOWN) : Int)

theorem gopTally_foldl_sum :
    ∀ (l : List FrameInfo) (t : Int × Int × Int × Int),
      (l.foldl gopTallyStep t).1 + (l.foldl gopTallyStep t).2.1
          + (l.foldl gopTallyStep t).2.2.1 + unknownCount l
        = t.1 + t.2.1 + t.2.2.1 + (l.length : Int) := by
  intro l
  induction l with
  | nil => intro t; simp [unknownCount]
  | cons f rest ih =>
    intro t
    obtain ⟨a, b, c, d⟩ := t
    simp only [List.foldl_cons]
    have h := ih (gopTallyStep (a, b, c, d) f)
    cases hty : f.type <;>
      simp only [gopTallyStep, hty] at h ⊢ <;>
      simp only [unknownCount, List.countP_cons, hty, List.length_cons] at h ⊢ <;>
      norm_num <;>
      push_cast at h ⊢ <;>
      omega

theorem gopTally_sum (slice : List FrameInfo) :
    (gopTally slice).1 + (gopTally slice).2.1 + (gopTally slice).2.2.1 + unknownCount slice
      = (slice.length : Int) := by
  have h := gopTally_foldl_sum slice (0, 0, 0, 0)
  simpa [gopTally] using h

theorem gopSlice_length (frames : List FrameInfo) (s e : Nat) (he : e ≤ frames.length) :
    (gopSlice frames s e).length = e - s := by
  simp [gopSlice]
  omega

theorem gopSlice_subset (frames : List FrameInfo) (s e : Nat) :
    ∀ f ∈ gopSlice frames s e, f ∈ frames := by
  intro f hf
  exact ((List.take_sublist _ _).trans (List.drop_sublist _ _)).mem hf

theorem mkGop_frameCount_eq (frames : List FrameInfo) (gi s e : Nat)
    (_hse : s ≤ e) (he : e ≤ frames.length)
    (hu : ∀ f ∈ frames, f.type ≠ FrameType.UNKNOWN) :
    (mkGop frames gi s e).frameCount
      = (mkGop frames gi s e).iFrameCount + (mkGop frames gi s e).pFrameCount
        + (mkGop frames gi s e).bFrameCount := by
  have hzero : unknownCount (gopSlice frames s e) = 0 := by
    simp only [unknownCount, Int.natCast_eq_zero]
    rw [List.countP_eq_zero]
    intro f hf
    have := hu f (gopSlice_subset frames s e f hf)
    simpa using this
  have hsum := gopTally_sum (gopSlice frames s e)
  rw [hzero, gopSlice_length frames s e he] at hsum
  simp only [mkGop]
  omega

theorem gopLoop_sum_aux (frames : List FrameInfo) :
    ∀ (n i gid gs : Nat) (acc : List GOPInfo),
      frames.length - i ≤ n → gs ≤ i → gs < frames.length →
      ((gopLoop frames i gid gs acc).map (fun g => g.frameCount)).sum
        = ((acc.map (fun g => g.frameCount)).sum) + ((frames.length - gs : Nat) : Int) := by
  intro n
  induction n with
  | zero =>
    intro i gid gs acc hni hgsi hgs
    have h : ¬i < frames.length := by omega
    rw [gopLoop]
    simp only [h, dif_neg, not_false_iff, hgs, if_pos]
    simp only [List.map_append, List.sum_append, List.map_cons, List.map_nil,
      List.sum_cons, List.sum_nil, mkGop]
    omega
  | succ n ih =>
    intro i gid gs acc hni hgsi hgs
    by_cases h : i < frames.length
    · by_cases hb : isGopBoundary frames[i] = true
      · rw [gopLoop]
        simp only [h, dif_pos, hb, if_pos]
        rw [ih (i + 1) (gid + 1) i _ (by omega) (by omega) h]
        simp only [List.map_append, List.sum_append, List.map_cons, List.map_nil,
          List.sum_cons, List.sum_nil, mkGop]
        omega
      · rw [gopLoop]
        simp only [h, dif_pos, hb, Bool.false_eq_true, if_neg, not_false_iff]
        rw [ih (i + 1) gid gs acc (by omega) (by omega) hgs]
    · rw [gopLoop]
      simp only [h, dif_neg, not_false_iff, hgs, if_pos]
      simp only [List.map_append, List.sum_append, List.map_cons, List.map_nil,
        List.sum_cons, List.sum_nil, mkGop]
      omega

theorem gopLoop_mem_aux (frames : List FrameInfo) :
    ∀ (n i gid gs : Nat) (acc : List GOPInfo) (g : GOPInfo),
      frames.length - i ≤ n → g ∈ gopLoop frames i gid gs acc → gs ≤ i →
      g ∈ acc ∨ ∃ gi s e, s ≤ e ∧ e ≤ frames.length ∧ g = mkGop frames gi s e := by
  intro n
  induction n with
  | zero =>
    intro i gid gs acc g hni hg hgsi
    have h : ¬i < frames.length := by omega
    rw [gopLoop] at hg
    by_cases hgs : gs < frames.length
    · simp only [h, dif_neg, not_false_iff, hgs, if_pos] at hg
      rcases List.mem_append.mp hg with hl | hr
      · exact Or.inl hl
      · right
        refine ⟨gid, gs, frames.length, by omega, le_refl _, ?_⟩
        simpa using hr
    · simp only [h, dif_neg, not_false_iff, hgs, if_neg] at hg
      exact Or.inl hg
  | succ n ih =>
    intro i gid gs acc g hni hg hgsi
    by_cases h : i < frames.length
    · by_cases hb : isGopBoundary frames[i] = true
      · rw [gopLoop] at hg
        simp only [h, dif_pos, hb, if_pos] at hg
        rcases ih (i + 1) (gid + 1) i _ g (by omega) hg (by omega) with hacc | hex
        · rcases List.mem_append.mp hacc with hl | hr
          · exact Or.inl hl
          · right
            refine ⟨gid, gs, i, hgsi, by omega, ?_⟩
            simpa using hr
        · exact Or.inr hex
      · rw [gopLoop] at hg
        simp only [h, dif_pos, hb, Bool.false_eq_true, if_neg, not_false_iff] at hg
        exact ih (i + 1) gid gs acc g (by omega) hg (by omega)
    · rw [gopLoop] at hg
      by_cases hgs : gs < frames.length
      · simp only [h, dif_neg, not_false_iff, hgs, if_pos] at hg
        rcases List.mem_append.mp hg with hl | hr
        · exact Or.inl hl
        · right
          refine ⟨gid, gs, frames.length, by omega, le_refl _, ?_⟩
          simpa using hr
      · simp only [h, dif_neg, not_false_iff, hgs, if_neg] at hg
        exact Or.inl hg

/-- C2 counterexample: a single frame of type UNKNOWN yields one segment
with frameCount 1 but iFrameCount + pFrameCount + bFrameCount = 0, so the
per-segment identity of the claim fails on this input. -/
theorem gop_frameCount_identity_fails_on_unknown :
    ∃ g ∈ detectGOPBoundaries
        [⟨0, 0, FrameType.UNKNOWN, 100, 0, false, 0, false, -1⟩],
      g.frameCount ≠ g.iFrameCount + g.pFrameCount + g.bFrameCount := by
  simp only [detectGOPBoundaries, List.isEmpty_cons, Bool.false_eq_true, if_neg,
    not_false_iff]
  rw [gopLoop]
  norm_num [mkGop, gopSlice, gopTally, gopTallyStep]

/-- C2 amended: for every input frame sequence, the sum of all segments
frameCount equals the number of input frames; and every segment satisfies
frameCount == iFrameCount + pFrameCount + bFrameCount provided no input
frame has type UNKNOWN (an UNKNOWN frame is counted in frameCount but in
none of the three per-type counters). -/
theorem detectGOPBoundaries_partition (frames : List FrameInfo) :
    ((detectGOPBoundaries frames).map (fun g => g.frameCount)).sum = (frames.length : Int)
    ∧ ((∀ f ∈ frames, f.type ≠ FrameType.UNKNOWN) →
        ∀ g ∈ detectGOPBoundaries frames,
          g.frameCount = g.iFrameCount + g.pFrameCount + g.bFrameCount) := by
  constructor
  · by_cases hemp : frames.isEmpty
    · rw [List.isEmpty_iff] at hemp
      subst hemp
      simp [detectGOPBoundaries]
    · have hne : frames.isEmpty = false := by simpa using hemp
      have hlen : 0 < frames.length := by
        cases frames with
        | nil => simp at hne
        | cons f rest => simp
      simp only [detectGOPBoundaries, hne, Bool.false_eq_true, if_neg, not_false_iff]
      rw [gopLoop_sum_aux frames frames.length 1 0 0 [] (by omega) (by omega) hlen]
      simp
  · intro hu g hg
    by_cases hemp : frames.isEmpty
    · rw [List.isEmpty_iff] at hemp
      subst hemp
      simp [detectGOPBoundaries] at hg
    · have hne : frames.isEmpty = false := by simpa using hemp
      simp only [detectGOPBoundaries, hne, Bool.false_eq_true, if_neg, not_false_iff] at hg
      rcases gopLoop_mem_aux frames frames.length 1 0 0 [] g (by omega) hg (by omega)
        with hacc | ⟨gi, s, e, hse, he, rfl⟩
      · simp at hacc
      · exact mkGop_frameCount_eq frames gi s e hse he hu

/-- Witness for the amended C2 theorem on the concrete two-frame input
[I keyframe, P frame]. -/
theorem detectGOPBoundaries_partition_witness :
    ((detectGOPBoundaries
        [⟨0, 0, FrameType.I_FRAME, 100, 0, true, 0, false, -1⟩,
         ⟨1, 1, FrameType.P_FRAME, 50, 0, false, 0, false, -1⟩]).map
      (fun g => g.frameCount)).sum = (2 : Int)
    ∧ ∀ g ∈ detectGOPBoundaries
        [⟨0, 0, FrameType.I_FRAME, 100, 0, true, 0, false, -1⟩,
         ⟨1, 1, FrameType.P_FRAME, 50, 0, false, 0, false, -1⟩],
        g.frameCount = g.iFrameCount + g.pFrameCount + g.bFrameCount := by
  constructor
  · have h := (detectGOPBoundaries_partition
      [⟨0, 0, FrameType.I_FRAME, 100, 0, true, 0, false, -1⟩,
       ⟨1, 1, FrameType.P_FRAME, 50, 0, false, 0, false, -1⟩]).1
    simpa using h
  · exact (detectGOPBoundaries_partition
      [⟨0, 0, FrameType.I_FRAME, 100, 0, true, 0, false, -1⟩,
       ⟨1, 1, FrameType.P_FRAME, 50, 0, false, 0, false, -1⟩]).2 (by decide)

/-! ## StreamAnalyzer (stream_analyzer.cpp)

The analysis loop pushes each decoded frame into the window deque and evicts
the front once the size exceeds maxWindowSize = 300; detectAnomalies appends
each detected anomaly to the anomaly deque and evicts the front once the
size exceeds 100.  The description string of an anomaly is plain formatted
text and is not modelled. -/

inductive AnomalyType where
  | FRAME_DROP
  | BITRATE_SPIKE
  | QUALITY_DROP
deriving DecidableEq, Repr

/-- Anomaly record from data_models.h (type and timestamp; the description
string is untranslated). -/
structure Anomaly where
  type : AnomalyType
  timestamp : Rat
deriving DecidableEq, Repr

/-- The window cap from analysisLoop: const size_t maxWindowSize = 300. -/
def maxWindowSize : Nat := 300

/-- The push-then-evict block of analysisLoop executed under dataMutex_:
push_back the frame, then pop_front once if the size exceeds the cap. -/
def pushWindow (w : List FrameInfo) (f : FrameInfo) : List FrameInfo :=
  let w2 := w ++ [f]
  if maxWindowSize < w2.length then w2.tail else w2

/-- The append-then-evict block of detectAnomalies executed under
dataMutex_: push_back the anomaly, then pop_front once if the size
exceeds 100. -/
def pushAnomaly (log : List Anomaly) (a : Anomaly) : List Anomaly :=
  let l2 := log ++ [a]
  if 100 < l2.length then l2.tail else l2

/-- The three anomaly rules of StreamAnalyzer::detectAnomalies evaluated for
one incoming frame against the previously seen frame, in program order:
frame drop (gap above twice the assumed 30fps interval), bitrate spike
(more than triple the previous frame's bits), quality drop (qp above 40,
independent of the previous frame). -/
def anomaliesFor (previousFrame : Option FrameInfo) (frame : FrameInfo) : List Anomaly :=
  (match previousFrame with
   | some p =>
     if frame.timestamp - p.timestamp > (1 / 30 : Rat) * 2 then
       [⟨AnomalyType.FRAME_DROP, frame.timestamp⟩]
     else []
   | none => []) ++
  (match previousFrame with
   | some p =>
     if (frame.size : Rat) * 8 > (p.size : Rat) * 8 * 3 then
       [⟨AnomalyType.BITRATE_SPIKE, frame.timestamp⟩]
     else []
   | none => []) ++
  (if frame.qp > 40 then [⟨AnomalyType.QUALITY_DROP, frame.timestamp⟩] else [])

/-- The analyzer's shared mutable state: the frame window deque, the anomaly
deque, and the previousFrame_ tracker. -/
structure AnalyzerState where
  frameWindow : List FrameInfo
  anomalies : List Anomaly
  previousFrame : Option FrameInfo
deriving DecidableEq, Repr

/-- One iteration of analysisLoop for a frame that arrived: window push and
evict, anomaly detection with per-anomaly capped append, previous-frame
update. -/
def analysisStep (st : AnalyzerState) (f : FrameInfo) : AnalyzerState :=
  { frameWindow := pushWindow st.frameWindow f,
    anomalies := (anomaliesFor st.previousFrame f).foldl pushAnomaly st.anomalies,
    previousFrame := some f }

/-- The analysis loop over an incoming frame sequence. -/
def analysisRun (st : AnalyzerState) (fs : List FrameInfo) : AnalyzerState :=
  fs.foldl analysisStep st

theorem pushWindow_length_le (w : List FrameInfo) (f : FrameInfo)
    (h : w.length ≤ maxWindowSize) : (pushWindow w f).length ≤ maxWindowSize := by
  simp only [pushWindow]
  split <;> simp_all

theorem pushAnomaly_length_le (l : List Anomaly) (a : Anomaly)
    (h : l.length ≤ 100) : (pushAnomaly l a).length ≤ 100 := by
  simp only [pushAnomaly]
  split <;> simp_all

theorem foldl_pushAnomaly_length_le :
    ∀ (as : List Anomaly) (l : List Anomaly), l.length ≤ 100 →
      (as.foldl pushAnomaly l).length ≤ 100 := by
  intro as
  induction as with
  | nil => intro l h; exact h
  | cons a rest ih =>
    intro l h
    exact ih (pushAnomaly l a) (pushAnomaly_length_le l a h)

/-- C5: whenever the data mutex is released the bounds hold: starting from
any state whose window holds at most maxWindowSize = 300 frames and whose
anomaly log holds at most 100 entries, after processing any further input
sequence both bounds still hold; and on overflow the oldest entry is
evicted while the newest is kept (push of a full window or full log drops
exactly the front element and appends the new one at the back). -/
theorem analyzer_capacity_bounds :
    (∀ (st : AnalyzerState) (fs : List FrameInfo),
      st.frameWindow.length ≤ maxWindowSize → st.anomalies.length ≤ 100 →
      (analysisRun st fs).frameWindow.length ≤ maxWindowSize
        ∧ (analysisRun st fs).anomalies.length ≤ 100)
    ∧ (∀ (w : List FrameInfo) (f : FrameInfo), w.length = maxWindowSize →
        pushWindow w f = w.tail ++ [f])
    ∧ (∀ (l : List Anomaly) (a : Anomaly), l.length = 100 →
        pushAnomaly l a = l.tail ++ [a]) := by
  refine ⟨?_, ?_, ?_⟩
  · intro st fs
    induction fs generalizing st with
    | nil => intro hw ha; exact ⟨hw, ha⟩
    | cons f rest ih =>
      intro hw ha
      exact ih (analysisStep st f)
        (pushWindow_length_le st.frameWindow f hw)
        (foldl_pushAnomaly_length_le _ st.anomalies ha)
  · intro w f hw
    cases w with
    | nil => simp [maxWindowSize] at hw
    | cons x xs =>
      simp only [pushWindow]
      rw [if_pos]
      · rfl
      · simp only [maxWindowSize] at hw ⊢
        simp only [List.length_cons] at hw
        simp only [List.length_append, List.length_cons, List.length_nil]
        omega
  · intro l a hl
    cases l with
    | nil => simp at hl
    | cons x xs =>
      simp only [pushAnomaly]
      rw [if_pos]
      · rfl
      · simp only [List.length_cons] at hl
        simp only [List.length_append, List.length_cons, List.length_nil]
        omega

/-- Witness for C5 at a concrete state and input. -/
theorem analyzer_capacity_bounds_witness :
    ((analysisRun ⟨[], [], none⟩
        [⟨0, 0, FrameType.I_FRAME, 100, 50, true, 0, false, -1⟩]).frameWindow.length
        ≤ maxWindowSize
      ∧ (analysisRun ⟨[], [], none⟩
          [⟨0, 0, FrameType.I_FRAME, 100, 50, true, 0, false, -1⟩]).anomalies.length ≤ 100)
    ∧ pushWindow
        (List.replicate 300 (⟨0, 0, FrameType.I_FRAME, 100, 50, true, 0, false, -1⟩ : FrameInfo))
        ⟨0, 0, FrameType.I_FRAME, 100, 50, true, 0, false, -1⟩
      = (List.replicate 300 (⟨0, 0, FrameType.I_FRAME, 100, 50, true, 0, false, -1⟩ : FrameInfo)).tail
          ++ [⟨0, 0, FrameType.I_FRAME, 100, 50, true, 0, false, -1⟩] := by
  constructor
  · exact analyzer_capacity_bounds.1 ⟨[], [], none⟩ _ (by simp) (by simp)
  · exact analyzer_capacity_bounds.2.1 _ _
      (by simp only [List.length_replicate, maxWindowSize])

/-! ## extractQP (stream_decoder.cpp StreamDecoder::extractQP and
video_decoder.cpp VideoDecoder::extractQP, identical logic)

Both return the placeholder 128 when the opened codec is AV1 and the
placeholder 0 for every other codec (the null-frame guard is unreachable
for decoded frames and is not modelled). -/

inductive CodecId where
  | av1
  | h264
  | hevc
  | mpeg2
deriving DecidableEq, Repr

/-- StreamDecoder::extractQP / VideoDecoder::extractQP for a decoded
(non-null) frame of a stream opened with the given codec. -/
def extractQP (codec : CodecId) : Int :=
  if codec = CodecId.av1 then 128 else 0

/-- C6: the reported quantization parameter is a constant of the codec
(128 for AV1, 0 otherwise), and for a frame carrying that qp the
QualityDrop rule of detectAnomalies (qp > 40) fires exactly for AV1
streams, regardless of the previous frame. -/
theorem extractQP_quality_drop_iff_av1 (codec : CodecId) (previousFrame : Option FrameInfo)
    (f : FrameInfo) (hqp : f.qp = extractQP codec) :
    (codec = CodecId.av1 → f.qp = 128)
    ∧ (codec ≠ CodecId.av1 → f.qp = 0)
    ∧ ((∃ a ∈ anomaliesFor previousFrame f, a.type = AnomalyType.QUALITY_DROP)
        ↔ codec = CodecId.av1) := by
  refine ⟨?_, ?_, ?_⟩
  · intro hc; rw [hqp, extractQP, if_pos hc]
  · intro hc; rw [hqp, extractQP, if_neg hc]
  · have hmem : (∃ a ∈ anomaliesFor previousFrame f, a.type = AnomalyType.QUALITY_DROP)
        ↔ 40 < f.qp := by
      cases previousFrame with
      | none =>
        by_cases h : 40 < f.qp <;> simp [anomaliesFor, gt_iff_lt, h]
      | some p =>
        by_cases h : 40 < f.qp
        · simp [anomaliesFor, gt_iff_lt, h]
          exact ⟨⟨AnomalyType.QUALITY_DROP, f.timestamp⟩, Or.inr (Or.inr rfl), rfl⟩
        · simp [anomaliesFor, gt_iff_lt, h]
          rintro x (⟨hc, rfl⟩ | ⟨hc, rfl⟩) <;> simp
    rw [hmem, hqp, extractQP]
    by_cases hc : codec = CodecId.av1
    · simp [hc]
    · simp [hc]

/-- Witness for C6 on an AV1 stream: a frame carrying the AV1 placeholder
qp triggers the QualityDrop rule. -/
theorem extractQP_quality_drop_iff_av1_witness :
    (⟨0, 0, FrameType.I_FRAME, 100, 128, true, 0, false, -1⟩ : FrameInfo).qp
        = extractQP CodecId.av1
    ∧ (∃ a ∈ anomaliesFor none (⟨0, 0, FrameType.I_FRAME, 100, 128, true, 0, false, -1⟩ : FrameInfo),
        a.type = AnomalyType.QUALITY_DROP) := by
  constructor
  · decide
  · exact (extractQP_quality_drop_iff_av1 CodecId.av1 none
      ⟨0, 0, FrameType.I_FRAME, 100, 128, true, 0, false, -1⟩ (by decide)).2.2.mpr rfl

/-! ## StreamAnalyzer::getCurrentBitrateStats (stream_analyzer.cpp)

The function copies out the frames whose timestamp is at least
back().timestamp - windowSize, sums their sizes, and divides the total bits
by the timestamp span between the first and last frame of that subset; all
statistics stay zero when the window is empty, the subset is empty, or the
span is not positive.  The timeSeriesData vector is untouched by this
function and not modelled. -/

/-- Bitrate statistics from data_models.h restricted to the four scalar
fields this function assigns. -/
structure BitrateStatistics where
  averageBitrate : Rat
  maxBitrate : Rat
  minBitrate : Rat
  stdDeviation : Rat
deriving DecidableEq, Repr

/-- The all-zero statistics value the function starts from. -/
def zeroBitrateStats : BitrateStatistics := ⟨0, 0, 0, 0⟩

/-- StreamAnalyzer::getCurrentBitrateStats. -/
def getCurrentBitrateStats (frameWindow : List FrameInfo) (windowSize : Rat) :
    BitrateStatistics :=
  match frameWindow.getLast? with
  | none => zeroBitrateStats
  | some lastF =>
    let startTime := lastF.timestamp - windowSize
    let windowFrames := frameWindow.filter (fun fr => startTime ≤ fr.timestamp)
    if hw : windowFrames = [] then zeroBitrateStats
    else
      let totalSize : Int := (windowFrames.map (fun fr => fr.size)).sum
      let duration := (windowFrames.getLast hw).timestamp - (windowFrames.head hw).timestamp
      if 0 < duration then
        { averageBitrate := (totalSize * 8 : Rat) / duration,
          maxBitrate := (totalSize * 8 : Rat) / duration * (3 / 2),
          minBitrate := (totalSize * 8 : Rat) / duration * (1 / 2),
          stdDeviation := 0 }
      else zeroBitrateStats

/-- The copied-out subset: the frames of the window whose timestamp is not
below back().timestamp - windowSize (empty when the window is empty). -/
def bitrateSubset (frameWindow : List FrameInfo) (windowSize : Rat) : List FrameInfo :=
  match frameWindow.getLast? with
  | none => []
  | some lastF => frameWindow.filter (fun fr => lastF.timestamp - windowSize ≤ fr.timestamp)

/-- The timestamp span between the first and the last frame of the subset
(zero when the subset is empty). -/
def bitrateSpan (frameWindow : List FrameInfo) (windowSize : Rat) : Rat :=
  ((bitrateSubset frameWindow windowSize).getLast?.map (fun fr => fr.timestamp)).getD 0
    - ((bitrateSubset frameWindow windowSize).head?.map (fun fr => fr.timestamp)).getD 0

/-- C8: the average bitrate equals the total bits of the in-window subset
divided by the elapsed seconds between the first and last frame of that
subset (max and min are then 1.5 and 0.5 times the average, the standard
deviation stays 0); and whenever that span is not positive — including any
single-frame or empty subset — every statistic is zero and no division by
zero is performed. -/
theorem getCurrentBitrateStats_spec (fw : List FrameInfo) (ws : Rat) :
    (0 < bitrateSpan fw ws →
      getCurrentBitrateStats fw ws
        = ⟨(((bitrateSubset fw ws).map (fun fr => fr.size)).sum * 8 : Rat)
              / bitrateSpan fw ws,
           (((bitrateSubset fw ws).map (fun fr => fr.size)).sum * 8 : Rat)
              / bitrateSpan fw ws * (3 / 2),
           (((bitrateSubset fw ws).map (fun fr => fr.size)).sum * 8 : Rat)
              / bitrateSpan fw ws * (1 / 2), 0⟩)
    ∧ (bitrateSpan fw ws ≤ 0 → getCurrentBitrateStats fw ws = zeroBitrateStats) := by
  cases hlast : fw.getLast? with
  | none =>
    constructor
    · intro hpos
      have : bitrateSpan fw ws = 0 := by
        simp [bitrateSpan, bitrateSubset, hlast]
      rw [this] at hpos
      exact absurd hpos (by norm_num)
    · intro _
      simp [getCurrentBitrateStats, hlast]
  | some lastF =>
    by_cases hw : fw.filter (fun fr => lastF.timestamp - ws ≤ fr.timestamp) = []
    · have hsubnil : bitrateSubset fw ws = [] := by
        simp only [bitrateSubset, hlast]
        exact hw
      constructor
      · intro hpos
        have : bitrateSpan fw ws = 0 := by
          rw [bitrateSpan, hsubnil]
          simp
        rw [this] at hpos
        exact absurd hpos (by norm_num)
      · intro _
        simp only [getCurrentBitrateStats, hlast]
        rw [dif_pos hw]
    · have hsubset : bitrateSubset fw ws
          = fw.filter (fun fr => lastF.timestamp - ws ≤ fr.timestamp) := by
        simp only [bitrateSubset, hlast]
      have hspan : bitrateSpan fw ws
          = ((fw.filter (fun fr => lastF.timestamp - ws ≤ fr.timestamp)).getLast hw).timestamp
            - ((fw.filter (fun fr => lastF.timestamp - ws ≤ fr.timestamp)).head hw).timestamp := by
        rw [bitrateSpan, hsubset]
        rw [List.getLast?_eq_getLast _ hw, List.head?_eq_head hw]
        rfl
      constructor
      · intro hpos
        rw [hspan] at hpos
        simp only [getCurrentBitrateStats, hlast]
        rw [dif_neg hw, if_pos hpos, hsubset, hspan]
      · intro hnonpos
        rw [hspan] at hnonpos
        simp only [getCurrentBitrateStats, hlast]
        rw [dif_neg hw, if_neg (by exact not_lt.mpr hnonpos)]

/-- Witness for C8 on a concrete two-frame window: timestamps 0 and 1
seconds, sizes 1000 and 2000 bytes, window 10 seconds: the average is
3000 * 8 / 1 = 24000 bits per second. -/
theorem getCurrentBitrateStats_spec_witness :
    getCurrentBitrateStats
        [⟨0, 0, FrameType.I_FRAME, 1000, 0, true, 0, false, -1⟩,
         ⟨1, 1, FrameType.P_FRAME, 2000, 0, false, 1, false, -1⟩] 10
      = ⟨24000, 36000, 12000, 0⟩ := by
  have h := (getCurrentBitrateStats_spec
    [⟨0, 0, FrameType.I_FRAME, 1000, 0, true, 0, false, -1⟩,
     ⟨1, 1, FrameType.P_FRAME, 2000, 0, false, 1, false, -1⟩] 10).1
  have hsub : bitrateSubset
      [⟨0, 0, FrameType.I_FRAME, 1000, 0, true, 0, false, -1⟩,
       ⟨1, 1, FrameType.P_FRAME, 2000, 0, false, 1, false, -1⟩] 10
      = [⟨0, 0, FrameType.I_FRAME, 1000, 0, true, 0, false, -1⟩,
         ⟨1, 1, FrameType.P_FRAME, 2000, 0, false, 1, false, -1⟩] := by
    simp only [bitrateSubset, List.getLast?_cons_cons, List.getLast?_singleton]
    norm_num [List.filter]
  have hspan : bitrateSpan
      [⟨0, 0, FrameType.I_FRAME, 1000, 0, true, 0, false, -1⟩,
       ⟨1, 1, FrameType.P_FRAME, 2000, 0, false, 1, false, -1⟩] 10 = 1 := by
    rw [bitrateSpan, hsub]
    norm_num
  rw [hsub, hspan] at h
  have h2 := h (by norm_num)
  rw [h2]
  norm_num

/-! ## ThreadPool (thread_pool.cpp)

The constructor computes the effective worker count from the requested
count and std::thread::hardware_concurrency() (modelled as the parameter
hardwareConcurrency); getThreadCount returns the number of workers created.
The destructor sets stop_ under the queue mutex, wakes all workers and
joins them; a worker exits only when stop_ is set and the queue is empty,
otherwise it dequeues one task and executes it. -/

/-- ThreadPool::detectHardwareThreads: hardware_concurrency, with 0 mapped
to the single-thread fallback. -/
def detectHardwareThreads (hardwareConcurrency : Nat) : Nat :=
  if hardwareConcurrency = 0 then 1 else hardwareConcurrency

/-- The constructor computation whose result getThreadCount reports:
auto-detect when the request is 0, clamp to the detected hardware threads,
ensure at least one. -/
def getThreadCount (hardwareConcurrency numThreads : Nat) : Nat :=
  let n1 := if numThreads = 0 then detectHardwareThreads hardwareConcurrency else numThreads
  let n2 := min n1 (detectHardwareThreads hardwareConcurrency)
  max n2 1

/-- C10: the effective thread count equals
max(1, min(requested_or_detected, hardware_concurrency)); in particular it
is at least 1 and never exceeds the detected hardware thread count. -/
theorem getThreadCount_clamped (hardwareConcurrency numThreads : Nat) :
    getThreadCount hardwareConcurrency numThreads
        = max 1 (min (if numThreads = 0 then detectHardwareThreads hardwareConcurrency
                      else numThreads) hardwareConcurrency)
    ∧ 1 ≤ getThreadCount hardwareConcurrency numThreads
    ∧ getThreadCount hardwareConcurrency numThreads
        ≤ detectHardwareThreads hardwareConcurrency := by
  unfold getThreadCount detectHardwareThreads
  by_cases h0 : hardwareConcurrency = 0 <;> by_cases hn : numThreads = 0 <;>
    simp [h0, hn] <;> omega

/-- The worker pool state after the destructor has set the stop flag:
the remaining queued tasks (front first), the tasks already dequeued and
executed (in dequeue order), the number of workers still running, and the
stop flag.  Tasks are identified by Nat. -/
structure PoolState where
  queue : List Nat
  executed : List Nat
  workers : Nat
  stopRequested : Bool
deriving DecidableEq, Repr

/-- One scheduler step of ThreadPool::workerThread.  runTask: a worker
whose wait predicate passed finds the queue non-empty, dequeues the front
task and executes it.  exit: a worker finds the stop flag set and the queue
empty and returns.  These are the only two exits from the guarded section
of the loop, so by construction a worker exits only when the stop flag is
set and the queue is empty. -/
inductive PoolStep : PoolState → PoolState → Prop where
  | runTask (t : Nat) (rest ex : List Nat) (w : Nat) (s : Bool) :
      PoolStep ⟨t :: rest, ex, w + 1, s⟩ ⟨rest, ex ++ [t], w + 1, s⟩
  | exit (ex : List Nat) (w : Nat) :
      PoolStep ⟨[], ex, w + 1, true⟩ ⟨[], ex, w, true⟩

/-- Interleavings of worker steps. -/
def PoolReaches : PoolState → PoolState → Prop :=
  Relation.ReflTransGen PoolStep

theorem poolStep_executed_queue (s1 s2 : PoolState) (h : PoolStep s1 s2) :
    s2.executed ++ s2.queue = s1.executed ++ s1.queue
      ∧ s2.stopRequested = s1.stopRequested
      ∧ (s2.workers = 0 → s2.queue = []) := by
  cases h with
  | runTask t rest ex w s => refine ⟨by simp, rfl, by intro h0; simp at h0⟩
  | exit ex w => exact ⟨rfl, rfl, fun _ => rfl⟩

/-- C9: from any shutdown state (stop flag set, at least one worker) every
reachable state in which all workers have exited — the point at which the
destructor's joins return — has an empty queue and has executed exactly the
tasks that were queued, in order, after the ones already executed: no
queued task is abandoned.  Moreover from any reachable state with a worker
still running some step is enabled, so no worker blocks forever. -/
theorem threadPool_shutdown_drains (init final : PoolState)
    (hstop : init.stopRequested = true) (hworkers : 1 ≤ init.workers)
    (hreach : PoolReaches init final) :
    (final.workers = 0 →
      final.queue = [] ∧ final.executed = init.executed ++ init.queue)
    ∧ (0 < final.workers → ∃ next, PoolStep final next) := by
  have hinv : final.executed ++ final.queue = init.executed ++ init.queue
      ∧ final.stopRequested = true
      ∧ (final.workers = 0 → final.queue = []) := by
    induction hreach with
    | refl => exact ⟨rfl, hstop, fun h0 => absurd h0 (by omega)⟩
    | tail hmid hstep ih =>
      obtain ⟨ih1, ih2, ih3⟩ := ih
      obtain ⟨h1, h2, h3⟩ := poolStep_executed_queue _ _ hstep
      exact ⟨h1.trans ih1, h2.trans ih2, h3⟩
  obtain ⟨hinv1, hinv2, hinv3⟩ := hinv
  constructor
  · intro h0
    have hq := hinv3 h0
    refine ⟨hq, ?_⟩
    rw [hq] at hinv1
    simpa using hinv1
  · intro hpos
    obtain ⟨q, ex, w, s⟩ := final
    simp only at hpos hinv2
    subst hinv2
    obtain ⟨w2, rfl⟩ : ∃ w2, w = w2 + 1 := ⟨w - 1, by omega⟩
    cases q with
    | nil => exact ⟨⟨[], ex, w2, true⟩, PoolStep.exit ex w2⟩
    | cons t rest => exact ⟨⟨rest, ex ++ [t], w2 + 1, true⟩, PoolStep.runTask t rest ex w2 true⟩

/-- Witness for C9: one worker, one queued task; the run-then-exit
interleaving reaches the all-joined state with the task executed. -/
theorem threadPool_shutdown_drains_witness :
    (⟨[], [7], 0, true⟩ : PoolState).queue = []
    ∧ (⟨[], [7], 0, true⟩ : PoolState).executed
        = (⟨[7], [], 1, true⟩ : PoolState).executed ++ (⟨[7], [], 1, true⟩ : PoolState).queue :=
  (threadPool_shutdown_drains ⟨[7], [], 1, true⟩ ⟨[], [7], 0, true⟩ rfl (by norm_num)
    (Relation.ReflTransGen.head (PoolStep.runTask 7 [] [] 0 true)
      (Relation.ReflTransGen.head (PoolStep.exit [7] 0) Relation.ReflTransGen.refl))).1 rfl

/-! ## VideoDecoder::readNextFrame (video_decoder.cpp)

The decode engine (the external codec collaborator of spec section 6) is
modelled abstractly: each video packet decodes to exactly one frame, and the
engine withholds up to `delay` decoded frames (the frame-threading decode
delay) until more input or a flush arrives.  receiveFrame returns a pending
frame if one is ready, EAGAIN when more input could produce one, and EOF
only after a flush has drained everything.  readNextFrame is the faithful
translation of the C++ pull loop: receive first; on EAGAIN read the next
packet (skipping other streams, recording lastPacketSize, sending the
packet); when input is exhausted send the flush, set endOfStream, and
attempt exactly one more receive — exactly as the code does. -/

/-- A compressed unit as av_read_frame delivers it: owning stream index,
byte size, and the frame its decode produces (1:1 pairing). -/
structure Packet where
  streamIndex : Int
  size : Int
  frame : FrameInfo
deriving DecidableEq, Repr

/-- Modelled decode engine state: frames ready for receive, frames decoded
but withheld by the decode delay, and the flushed flag. -/
structure Engine where
  delay : Nat
  pending : List FrameInfo
  backlog : List FrameInfo
  flushed : Bool
deriving DecidableEq, Repr

/-- Result of avcodec_receive_frame: a frame, EAGAIN, or EOF. -/
inductive RecvResult where
  | frame (f : FrameInfo)
  | again
  | eof
deriving DecidableEq, Repr

/-- avcodec_receive_frame: pop a pending frame when available; otherwise
EOF once flushed, EAGAIN before that. -/
def Engine.receiveFrame (e : Engine) : RecvResult × Engine :=
  match e.pending with
  | f :: rest => (RecvResult.frame f, { e with pending := rest })
  | [] => if e.flushed then (RecvResult.eof, e) else (RecvResult.again, e)

/-- avcodec_send_packet: the packet's frame enters the backlog and frames
beyond the decode delay become pending in decode order. -/
def Engine.sendPacket (e : Engine) (p : Packet) : Engine :=
  let backlog2 := e.backlog ++ [p.frame]
  if e.delay < backlog2.length then
    { e with pending := e.pending ++ backlog2.take (backlog2.length - e.delay),
             backlog := backlog2.drop (backlog2.length - e.delay) }
  else
    { e with backlog := backlog2 }

/-- avcodec_send_packet(nullptr): the flush releases every withheld frame. -/
def Engine.sendFlush (e : Engine) : Engine :=
  { e with pending := e.pending ++ e.backlog, backlog := [], flushed := true }

/-- The state behind VideoDecoder::Impl that readNextFrame touches. -/
structure VideoDecoderState where
  engine : Engine
  input : List Packet
  videoStreamIndex : Int
  endOfStream : Bool
  lastPacketSize : Int
deriving DecidableEq, Repr

/-- Field filling at a successful receive: the FrameInfo is built from the
decoded frame but its size is taken from lastPacketSize (the most recently
read packet). -/
def emitFrame (f : FrameInfo) (lastPacketSize : Int) : FrameInfo :=
  { f with size := lastPacketSize }

/-- The while(true) loop of readNextFrame, recursing over the remaining
input: receive first; on EAGAIN read a packet — at end of input send the
flush, set endOfStream and receive once more; otherwise skip foreign
streams or send the packet and loop. -/
def readLoop (stream lastSize : Int) (e : Engine) :
    List Packet → Option FrameInfo × VideoDecoderState
  | [] =>
    match e.receiveFrame with
    | (RecvResult.frame f, e2) =>
      (some (emitFrame f lastSize), ⟨e2, [], stream, false, lastSize⟩)
    | (RecvResult.eof, e2) =>
      (none, ⟨e2, [], stream, true, lastSize⟩)
    | (RecvResult.again, _) =>
      let e3 := e.sendFlush
      match e3.receiveFrame with
      | (RecvResult.frame f, e4) =>
        (some (emitFrame f lastSize), ⟨e4, [], stream, true, lastSize⟩)
      | (_, e4) => (none, ⟨e4, [], stream, true, lastSize⟩)
  | p :: rest =>
    match e.receiveFrame with
    | (RecvResult.frame f, e2) =>
      (some (emitFrame f lastSize), ⟨e2, p :: rest, stream, false, lastSize⟩)
    | (RecvResult.eof, e2) =>
      (none, ⟨e2, p :: rest, stream, true, lastSize⟩)
    | (RecvResult.again, _) =>
      if p.streamIndex ≠ stream then
        readLoop stream lastSize e rest
      else
        readLoop stream p.size (e.sendPacket p) rest

/-- VideoDecoder::readNextFrame: once endOfStream is set every call returns
nullopt immediately; otherwise run the pull loop. -/
def readNextFrame (s : VideoDecoderState) : Option FrameInfo × VideoDecoderState :=
  if s.endOfStream then (none, s)
  else readLoop s.videoStreamIndex s.lastPacketSize s.engine s.input

/-- C1 evaluated on a stream whose engine withholds two frames until the
flush (decode delay 2, two video packets): the first call reaches end of
input, flushes, marks the stream finished and returns the first drained
frame while the second frame is still pending inside the engine; the next
call returns None immediately and the pending frame is never delivered —
the drain stops after at most one frame instead of continuing until the
engine is exhausted, so a buffered frame is abandoned, contradicting the
claimed drain-until-exhausted behaviour. -/
theorem readNextFrame_eof_drops_buffered :
    (readNextFrame ⟨⟨2, [], [], false⟩,
        [⟨0, 50, ⟨1, 1, FrameType.I_FRAME, 0, 0, true, 1, false, -1⟩⟩,
         ⟨0, 60, ⟨2, 2, FrameType.P_FRAME, 0, 0, false, 2, false, -1⟩⟩],
        0, false, 0⟩).1
      = some ⟨1, 1, FrameType.I_FRAME, 60, 0, true, 1, false, -1⟩
    ∧ (readNextFrame ⟨⟨2, [], [], false⟩,
        [⟨0, 50, ⟨1, 1, FrameType.I_FRAME, 0, 0, true, 1, false, -1⟩⟩,
         ⟨0, 60, ⟨2, 2, FrameType.P_FRAME, 0, 0, false, 2, false, -1⟩⟩],
        0, false, 0⟩).2.endOfStream = true
    ∧ (readNextFrame ⟨⟨2, [], [], false⟩,
        [⟨0, 50, ⟨1, 1, FrameType.I_FRAME, 0, 0, true, 1, false, -1⟩⟩,
         ⟨0, 60, ⟨2, 2, FrameType.P_FRAME, 0, 0, false, 2, false, -1⟩⟩],
        0, false, 0⟩).2.engine.pending
      = [⟨2, 2, FrameType.P_FRAME, 0, 0, false, 2, false, -1⟩]
    ∧ (readNextFrame (readNextFrame ⟨⟨2, [], [], false⟩,
        [⟨0, 50, ⟨1, 1, FrameType.I_FRAME, 0, 0, true, 1, false, -1⟩⟩,
         ⟨0, 60, ⟨2, 2, FrameType.P_FRAME, 0, 0, false, 2, false, -1⟩⟩],
        0, false, 0⟩).2).1 = none
    ∧ (readNextFrame (readNextFrame ⟨⟨2, [], [], false⟩,
        [⟨0, 50, ⟨1, 1, FrameType.I_FRAME, 0, 0, true, 1, false, -1⟩⟩,
         ⟨0, 60, ⟨2, 2, FrameType.P_FRAME, 0, 0, false, 2, false, -1⟩⟩],
        0, false, 0⟩).2).2.engine.pending
      = [⟨2, 2, FrameType.P_FRAME, 0, 0, false, 2, false, -1⟩] := by
  decide

end VideoAnalyzer
